import Mathlib

/-!
Shallow embedding of `src/python/pyspark/sql/streaming/stateful_processor.py`
(the state client / handle layer of a streaming stateful processor).

The source file implements the constructors of `ValueState`, `ListState` and
`StatefulProcessorHandle`, plus `StatefulProcessorHandle.getListState`; the
remaining method bodies are `pass` placeholders and the `StateApiClient`
(Registry Client) class is declared in another file of the repository that is
not available here.  Those missing parts are modelled from the spec and each
such definition carries a doc comment saying so.

Values, names, schemas and grouping keys are dynamically typed / opaque in the
Python source, so they are embedded as concrete decidable types.  Python
object references are embedded with an explicit heap: a handle or a state
variable stores a `ClientRef`, and a `Heap` maps references to the current
`StateApiClient` state, so that "the very same client object" is expressible.
-/

namespace Spark

/-- State variable names (Python `state_name : str`). -/
abbrev Name := String

/-- Schema descriptors (Python `schema : Union[StructType, str]`), opaque with
decidable equality. -/
abbrev Schema := String

/-- Grouping keys, opaque comparable values supplied by the engine. -/
abbrev Key := Nat

/-- Type-erased stored values (Python `Any` / rows). -/
abbrev Val := Nat

/-- A reference to a `StateApiClient` object (Python object identity). -/
abbrev ClientRef := Nat

/-- Kind of a declared state variable: scalar or list. -/
inductive StateKind where
  | scalar
  | list
  deriving DecidableEq

/-- Modelled from the spec: the error taxonomy of §7. -/
inductive StateError where
  | SchemaConflict
  | InvalidSchema
  | InvalidKeyState
  | BackendUnavailable
  | HandleClosed
  deriving DecidableEq

/-- Modelled from the spec: the internal state of the Registry Client
(`StateApiClient`), whose class body is not part of the given source file.
It records the registered `(name, schema, kind)` declarations, the backing
stores for scalar and list state keyed by `(name, key)`, the currently bound
grouping key (if any), and whether the connection has been closed. -/
structure StateApiClient where
  registrations : List (Name × Schema × StateKind)
  scalarStore : Name → Key → Option Val
  listStore : Name → Key → List Val
  boundKey : Option Key
  closed : Bool

namespace StateApiClient

/-- The schema and kind a name is registered with, if any. -/
def lookupReg (c : StateApiClient) (n : Name) : Option (Schema × StateKind) :=
  (c.registrations.find? (fun e => e.1 = n)).map (fun e => e.2)

/-- Modelled from the spec: the currently bound grouping key; every per-key
operation fails with `HandleClosed` after `close()` and with
`InvalidKeyState` when no key is bound. -/
def currentKey (c : StateApiClient) : Except StateError Key :=
  if c.closed then .error .HandleClosed
  else
    match c.boundKey with
    | some k => .ok k
    | none => .error .InvalidKeyState

/-- Modelled from the spec: registration of a `(name, schema)` declaration,
idempotent for identical pairs, `SchemaConflict` when the name is already
registered with a different schema, `HandleClosed` after `close()`. -/
def register (c : StateApiClient) (n : Name) (s : Schema) (kd : StateKind) :
    Except StateError StateApiClient :=
  if c.closed then .error .HandleClosed
  else
    match c.lookupReg n with
    | some e => if e.1 = s then .ok c else .error .SchemaConflict
    | none =>
        .ok ⟨c.registrations ++ [(n, s, kd)], c.scalarStore, c.listStore,
             c.boundKey, c.closed⟩

/-- Modelled from the spec: the client call issued by
`StatefulProcessorHandle.getValueState` registers scalar-kind state. -/
def getValueState (c : StateApiClient) (n : Name) (s : Schema) :
    Except StateError StateApiClient :=
  c.register n s .scalar

/-- Modelled from the spec: the client call issued by
`StatefulProcessorHandle.getListState` registers list-kind state. -/
def getListState (c : StateApiClient) (n : Name) (s : Schema) :
    Except StateError StateApiClient :=
  c.register n s .list

/-- Modelled from the spec: scalar read, an explicit optional result
(absence is `none`, never an exception). -/
def scalarGet (c : StateApiClient) (n : Name) : Except StateError (Option Val) :=
  (c.currentKey).map (fun k => c.scalarStore n k)

/-- Modelled from the spec: scalar existence check for the bound key. -/
def scalarExists (c : StateApiClient) (n : Name) : Except StateError Bool :=
  (c.currentKey).map (fun k => (c.scalarStore n k).isSome)

/-- Modelled from the spec: scalar total-replacement write for the bound key. -/
def scalarUpdate (c : StateApiClient) (n : Name) (v : Val) :
    Except StateError StateApiClient :=
  (c.currentKey).map (fun k =>
    ⟨c.registrations,
     fun n' k' => if n' = n ∧ k' = k then some v else c.scalarStore n' k',
     c.listStore, c.boundKey, c.closed⟩)

/-- Modelled from the spec: scalar removal for the bound key; a no-op when
nothing is stored. -/
def scalarRemove (c : StateApiClient) (n : Name) :
    Except StateError StateApiClient :=
  (c.currentKey).map (fun k =>
    ⟨c.registrations,
     fun n' k' => if n' = n ∧ k' = k then none else c.scalarStore n' k',
     c.listStore, c.boundKey, c.closed⟩)

/-- Modelled from the spec: list read; each call re-reads the whole finite
sequence from the backend for the bound key. -/
def listGet (c : StateApiClient) (n : Name) : Except StateError (List Val) :=
  (c.currentKey).map (fun k => c.listStore n k)

/-- Modelled from the spec: list existence check — true iff a non-empty
sequence is stored for the bound key. -/
def listExists (c : StateApiClient) (n : Name) : Except StateError Bool :=
  (c.currentKey).map (fun k => !(c.listStore n k).isEmpty)

/-- Modelled from the spec: list total-replacement write for the bound key. -/
def listUpdate (c : StateApiClient) (n : Name) (seq : List Val) :
    Except StateError StateApiClient :=
  (c.currentKey).map (fun k =>
    ⟨c.registrations, c.scalarStore,
     fun n' k' => if n' = n ∧ k' = k then seq else c.listStore n' k',
     c.boundKey, c.closed⟩)

/-- Modelled from the spec: list removal for the bound key. -/
def listRemove (c : StateApiClient) (n : Name) :
    Except StateError StateApiClient :=
  (c.currentKey).map (fun k =>
    ⟨c.registrations, c.scalarStore,
     fun n' k' => if n' = n ∧ k' = k then [] else c.listStore n' k',
     c.boundKey, c.closed⟩)

/-- Modelled from the spec (§4.3): the engine rebinds the active grouping key
before each `handleInputRows` call. -/
def bindKey (c : StateApiClient) (k : Key) : StateApiClient :=
  ⟨c.registrations, c.scalarStore, c.listStore, some k, c.closed⟩

/-- Modelled from the spec (§4.4): `close()` releases the Registry Client
connection; afterwards every state operation fails with `HandleClosed`. -/
def close (c : StateApiClient) : StateApiClient :=
  ⟨c.registrations, c.scalarStore, c.listStore, c.boundKey, true⟩

end StateApiClient

/-- The heap of client objects: Python references to `StateApiClient`. -/
abbrev Heap := ClientRef → StateApiClient

/-- Update the heap at one reference (Python in-place object mutation). -/
def heapUpdate (h : Heap) (r : ClientRef) (c : StateApiClient) : Heap :=
  fun r' => if r' = r then c else h r'

/-- `ValueState` from the source: it stores exactly the client reference and
the state name set by its `__init__`. -/
structure ValueState where
  _state_api_client : ClientRef
  _state_name : Name
  deriving DecidableEq

namespace ValueState

/-- Modelled from the spec: `ValueState.exists` (its body is `pass` in the
source) — true iff the backend holds a value for `(name, currentKey)`. -/
def exists' (vs : ValueState) (h : Heap) : Except StateError Bool :=
  (h vs._state_api_client).scalarExists vs._state_name

/-- Modelled from the spec: `ValueState.get` (its body is `pass` in the
source) — an explicit optional result, `none` for normal absence. -/
def get (vs : ValueState) (h : Heap) : Except StateError (Option Val) :=
  (h vs._state_api_client).scalarGet vs._state_name

/-- Modelled from the spec: `ValueState.update` (its body is `pass` in the
source) — total replacement for the current key, mutating the client. -/
def update (vs : ValueState) (h : Heap) (v : Val) : Except StateError Heap :=
  ((h vs._state_api_client).scalarUpdate vs._state_name v).map
    (fun c => heapUpdate h vs._state_api_client c)

/-- Modelled from the spec: `ValueState.remove` (its body is `pass` in the
source) — deletes the value for the current key. -/
def remove (vs : ValueState) (h : Heap) : Except StateError Heap :=
  ((h vs._state_api_client).scalarRemove vs._state_name).map
    (fun c => heapUpdate h vs._state_api_client c)

end ValueState

/-- `ListState` from the source: it stores exactly the client reference and
the state name set by its `__init__`. -/
structure ListState where
  _state_api_client : ClientRef
  _state_name : Name
  deriving DecidableEq

namespace ListState

/-- Modelled from the spec: `ListState.exists` (its body is `pass` in the
source). -/
def exists' (ls : ListState) (h : Heap) : Except StateError Bool :=
  (h ls._state_api_client).listExists ls._state_name

/-- Modelled from the spec: `ListState.get` (its body is `pass` in the
source) — returns the whole finite sequence, re-read from the backend on
every call (a fresh traversal), together with the heap it leaves behind. -/
def get (ls : ListState) (h : Heap) : Except StateError (List Val × Heap) :=
  ((h ls._state_api_client).listGet ls._state_name).map (fun seq => (seq, h))

/-- Modelled from the spec: `ListState.update` (its body is `pass` in the
source) — atomically replaces the entire sequence for the current key. -/
def update (ls : ListState) (h : Heap) (seq : List Val) :
    Except StateError Heap :=
  ((h ls._state_api_client).listUpdate ls._state_name seq).map
    (fun c => heapUpdate h ls._state_api_client c)

/-- Modelled from the spec: `ListState.remove` (its body is `pass` in the
source) — deletes the whole sequence for the current key. -/
def remove (ls : ListState) (h : Heap) : Except StateError Heap :=
  ((h ls._state_api_client).listRemove ls._state_name).map
    (fun c => heapUpdate h ls._state_api_client c)

end ListState

/-- `StatefulProcessorHandle` from the source: its `__init__` stores exactly
the client reference. -/
structure StatefulProcessorHandle where
  state_api_client : ClientRef
  deriving DecidableEq

namespace StatefulProcessorHandle

/-- From the source:
`self.state_api_client.getListState(state_name, schema);
return ListState(self.state_api_client, state_name)`.
The method assigns nothing to `self`, so the handle is returned unchanged;
the client object referenced by `state_api_client` is mutated in place. -/
def getListState (hd : StatefulProcessorHandle) (h : Heap) (n : Name)
    (s : Schema) :
    Except StateError (ListState × StatefulProcessorHandle × Heap) :=
  ((h hd.state_api_client).getListState n s).map
    (fun c => (⟨hd.state_api_client, n⟩, hd,
               heapUpdate h hd.state_api_client c))

/-- Modelled from the spec: `StatefulProcessorHandle.getValueState` (its body
is `pass` in the source) — registers `(name, schema)` with the client and
returns a `ValueState` bound to that name and client, mirroring the
implemented `getListState`. -/
def getValueState (hd : StatefulProcessorHandle) (h : Heap) (n : Name)
    (s : Schema) :
    Except StateError (ValueState × StatefulProcessorHandle × Heap) :=
  ((h hd.state_api_client).getValueState n s).map
    (fun c => (⟨hd.state_api_client, n⟩, hd,
               heapUpdate h hd.state_api_client c))

end StatefulProcessorHandle

/-- Modelled from the spec (§4.4): the lifecycle events the engine drives on a
`StatefulProcessor`. -/
inductive LifecycleEvent where
  | initEv
  | handleEv (k : Key)
  | closeEv
  deriving DecidableEq

/-- Modelled from the spec (§4.4): a valid complete lifecycle of one task —
`init` once, then `handleInputRows` once per key invocation, then `close`. -/
inductive ValidLifecycle : List LifecycleEvent → Prop where
  | mk (ks : List Key) :
      ValidLifecycle
        (LifecycleEvent.initEv ::
          (ks.map LifecycleEvent.handleEv ++ [LifecycleEvent.closeEv]))

/-! ### Helper lemmas and concrete fixtures -/

theorem StateApiClient.currentKey_ok_iff (c : StateApiClient) (k : Key) :
    c.currentKey = Except.ok k ↔ c.closed = false ∧ c.boundKey = some k := by
  unfold StateApiClient.currentKey
  cases hc : c.closed <;> cases hb : c.boundKey <;> simp

theorem heapUpdate_at (h : Heap) (r : ClientRef) (c : StateApiClient) :
    heapUpdate h r c r = c := by
  simp [heapUpdate]

theorem heapUpdate_heapUpdate (h : Heap) (r : ClientRef)
    (c1 c2 : StateApiClient) :
    heapUpdate (heapUpdate h r c1) r c2 = heapUpdate h r c2 := by
  funext r'
  by_cases hr : r' = r <;> simp [heapUpdate, hr]

/-- Modelled from the spec (§4.3): the engine rebinds the grouping key of the
client object behind a reference before each `handleInputRows` call. -/
def rebindKey (h : Heap) (r : ClientRef) (k : Key) : Heap :=
  heapUpdate h r ((h r).bindKey k)

/-- A fresh open client bound to key 0, used by the concrete witnesses. -/
def clientW : StateApiClient :=
  ⟨[], fun _ _ => none, fun _ _ => [], some 0, false⟩

/-- A heap whose every reference holds `clientW`. -/
def heapW : Heap := fun _ => clientW

/-! ### Claims -/

/-- C1: For every ScalarState (`ValueState`) bound to a key, calling
`update(v)` and then `get()` with no intervening remove or update for that
key returns exactly `v`. -/
theorem valueState_update_then_get (vs : ValueState) (h : Heap) (v : Val)
    (k : Key) (hk : (h vs._state_api_client).currentKey = Except.ok k) :
    (vs.update h v).bind vs.get = .ok (some v) := by
  obtain ⟨hc, hb⟩ := (StateApiClient.currentKey_ok_iff _ _).mp hk
  simp [ValueState.update, ValueState.get, StateApiClient.scalarUpdate,
    StateApiClient.scalarGet, StateApiClient.currentKey, hc, hb, heapUpdate,
    Except.map, Except.bind]

/-- Witness for C1 at a concrete input. -/
theorem valueState_update_then_get_w :
    (heapW (ValueState.mk 0 "count")._state_api_client).currentKey =
      Except.ok 0 ∧
    ((ValueState.mk 0 "count").update heapW 5).bind
      (ValueState.mk 0 "count").get = .ok (some 5) :=
  ⟨rfl, valueState_update_then_get (ValueState.mk 0 "count") heapW 5 0 rfl⟩

/-- C2: For every ScalarState, `remove()` then `exists()` is false; `get()`
after `remove()`, and `get()` before any `update()`, report absence as an
explicit `none` result — never a stale value, never an error. -/
theorem valueState_remove_then_absent (vs : ValueState) (h : Heap) (k : Key)
    (hk : (h vs._state_api_client).currentKey = Except.ok k) :
    (vs.remove h).bind vs.exists' = .ok false ∧
    (vs.remove h).bind vs.get = .ok none ∧
    ((h vs._state_api_client).scalarStore vs._state_name k = none →
      vs.get h = .ok none ∧ vs.exists' h = .ok false) := by
  obtain ⟨hc, hb⟩ := (StateApiClient.currentKey_ok_iff _ _).mp hk
  refine ⟨?_, ?_, fun habs => ⟨?_, ?_⟩⟩ <;>
    simp [ValueState.remove, ValueState.get, ValueState.exists',
      StateApiClient.scalarRemove, StateApiClient.scalarGet,
      StateApiClient.scalarExists, StateApiClient.currentKey, hc, hb,
      heapUpdate, Except.map, Except.bind] <;>
    simp_all

/-- Witness for C2 at a concrete input. -/
theorem valueState_remove_then_absent_w :
    (heapW (ValueState.mk 0 "count")._state_api_client).currentKey =
      Except.ok 0 ∧
    (((ValueState.mk 0 "count").remove heapW).bind
        (ValueState.mk 0 "count").exists' = .ok false ∧
      ((ValueState.mk 0 "count").remove heapW).bind
        (ValueState.mk 0 "count").get = .ok none ∧
      ((heapW (ValueState.mk 0 "count")._state_api_client).scalarStore
          (ValueState.mk 0 "count")._state_name 0 = none →
        (ValueState.mk 0 "count").get heapW = .ok none ∧
        (ValueState.mk 0 "count").exists' heapW = .ok false)) :=
  ⟨rfl, valueState_remove_then_absent (ValueState.mk 0 "count") heapW 0 rfl⟩

/-- C3: For every ListState and finite sequence `seq`, after `update(seq)`
two independent `get()` calls each yield `seq` in order; the second pass
starts from the state the first pass left, and neither interferes with the
other. -/
theorem listState_update_then_get_twice (ls : ListState) (h : Heap)
    (seq : List Val) (k : Key)
    (hk : (h ls._state_api_client).currentKey = Except.ok k) :
    (ls.update h seq).bind (fun h1 =>
      (ls.get h1).bind (fun p => (ls.get p.2).map (fun q => (p.1, q.1)))) =
      .ok (seq, seq) := by
  obtain ⟨hc, hb⟩ := (StateApiClient.currentKey_ok_iff _ _).mp hk
  simp [ListState.update, ListState.get, StateApiClient.listUpdate,
    StateApiClient.listGet, StateApiClient.currentKey, hc, hb, heapUpdate,
    Except.map, Except.bind]

/-- Witness for C3 at a concrete input. -/
theorem listState_update_then_get_twice_w :
    (heapW (ListState.mk 0 "events")._state_api_client).currentKey =
      Except.ok 0 ∧
    ((ListState.mk 0 "events").update heapW [3, 1, 2]).bind (fun h1 =>
      ((ListState.mk 0 "events").get h1).bind (fun p =>
        ((ListState.mk 0 "events").get p.2).map (fun q => (p.1, q.1)))) =
      .ok ([3, 1, 2], [3, 1, 2]) :=
  ⟨rfl, listState_update_then_get_twice (ListState.mk 0 "events") heapW
    [3, 1, 2] 0 rfl⟩

/-- C4: Declaring a state variable twice through the handle (`getValueState`
or `getListState`) with the same name and an equal schema is idempotent —
the second call returns exactly the result of the first (same variable
handle, same processor handle, same heap) and raises no error; declaring the
same name with a different schema fails with `SchemaConflict`. -/
theorem handle_declare_idempotent (hd : StatefulProcessorHandle) (h : Heap)
    (n : Name) (s s' : Schema)
    (hc : (h hd.state_api_client).closed = false)
    (hfresh : (h hd.state_api_client).lookupReg n = none)
    (hne : s' ≠ s) :
    (hd.getListState h n s).bind
        (fun r => r.2.1.getListState r.2.2 n s) = hd.getListState h n s ∧
    (hd.getListState h n s).bind
        (fun r => r.2.1.getListState r.2.2 n s') =
      .error .SchemaConflict ∧
    (hd.getValueState h n s).bind
        (fun r => r.2.1.getValueState r.2.2 n s) = hd.getValueState h n s ∧
    (hd.getValueState h n s).bind
        (fun r => r.2.1.getValueState r.2.2 n s') =
      .error .SchemaConflict := by
  have hf : (h hd.state_api_client).registrations.find?
      (fun e => e.1 = n) = none := by
    unfold StateApiClient.lookupReg at hfresh
    exact Option.map_eq_none'.mp hfresh
  refine ⟨?_, ?_, ?_, ?_⟩ <;>
    simp [StatefulProcessorHandle.getListState,
      StatefulProcessorHandle.getValueState, StateApiClient.getListState,
      StateApiClient.getValueState, StateApiClient.register,
      StateApiClient.lookupReg, hc, hf, hne, Ne.symm hne, heapUpdate_at,
      heapUpdate_heapUpdate, List.find?_append, Except.map, Except.bind]

/-- Witness for C4 at a concrete input. -/
theorem handle_declare_idempotent_w :
    ((heapW (StatefulProcessorHandle.mk 0).state_api_client).closed = false ∧
      (heapW (StatefulProcessorHandle.mk 0).state_api_client).lookupReg
        "x" = none ∧
      ("t" : Schema) ≠ "s") ∧
    (((StatefulProcessorHandle.mk 0).getListState heapW "x" "s").bind
        (fun r => r.2.1.getListState r.2.2 "x" "s") =
      (StatefulProcessorHandle.mk 0).getListState heapW "x" "s" ∧
    ((StatefulProcessorHandle.mk 0).getListState heapW "x" "s").bind
        (fun r => r.2.1.getListState r.2.2 "x" "t") =
      .error .SchemaConflict ∧
    ((StatefulProcessorHandle.mk 0).getValueState heapW "x" "s").bind
        (fun r => r.2.1.getValueState r.2.2 "x" "s") =
      (StatefulProcessorHandle.mk 0).getValueState heapW "x" "s" ∧
    ((StatefulProcessorHandle.mk 0).getValueState heapW "x" "s").bind
        (fun r => r.2.1.getValueState r.2.2 "x" "t") =
      .error .SchemaConflict) :=
  ⟨⟨rfl, rfl, by decide⟩,
    handle_declare_idempotent (StatefulProcessorHandle.mk 0) heapW "x" "s"
      "t" rfl rfl (by decide)⟩

/-- C5: key isolation — a write (`update`) performed for a variable name
while key `k1` is bound is never visible when the same variable is later
read (`get` or `exists`) with a different key `k2` bound: the read after
the write equals the read without the write, for ScalarState and ListState
alike. -/
theorem key_isolation (vs : ValueState) (ls : ListState) (h : Heap)
    (v : Val) (seq : List Val) (k1 k2 : Key)
    (hbv : (h vs._state_api_client).boundKey = some k1)
    (hcv : (h vs._state_api_client).closed = false)
    (hbl : (h ls._state_api_client).boundKey = some k1)
    (hcl : (h ls._state_api_client).closed = false)
    (hne : k2 ≠ k1) :
    (vs.update h v).bind
        (fun h1 => vs.get (rebindKey h1 vs._state_api_client k2)) =
      vs.get (rebindKey h vs._state_api_client k2) ∧
    (vs.update h v).bind
        (fun h1 => vs.exists' (rebindKey h1 vs._state_api_client k2)) =
      vs.exists' (rebindKey h vs._state_api_client k2) ∧
    (ls.update h seq).bind
        (fun h1 => (ls.get (rebindKey h1 ls._state_api_client k2)).map
          (fun p => p.1)) =
      (ls.get (rebindKey h ls._state_api_client k2)).map (fun p => p.1) ∧
    (ls.update h seq).bind
        (fun h1 => ls.exists' (rebindKey h1 ls._state_api_client k2)) =
      ls.exists' (rebindKey h ls._state_api_client k2) := by
  refine ⟨?_, ?_, ?_, ?_⟩ <;>
    simp [ValueState.update, ValueState.get, ValueState.exists',
      ListState.update, ListState.get, ListState.exists',
      StateApiClient.scalarUpdate, StateApiClient.scalarGet,
      StateApiClient.scalarExists, StateApiClient.listUpdate,
      StateApiClient.listGet, StateApiClient.listExists,
      StateApiClient.currentKey, StateApiClient.bindKey, rebindKey,
      heapUpdate_at, heapUpdate, hbv, hcv, hbl, hcl, hne,
      Except.map, Except.bind]

/-- Witness for C5 at a concrete input. -/
theorem key_isolation_w :
    ((heapW (ValueState.mk 0 "count")._state_api_client).boundKey = some 0 ∧
      (heapW (ValueState.mk 0 "count")._state_api_client).closed = false ∧
      (1 : Key) ≠ 0) ∧
    (((ValueState.mk 0 "count").update heapW 7).bind
        (fun h1 => (ValueState.mk 0 "count").get
          (rebindKey h1 (ValueState.mk 0 "count")._state_api_client 1)) =
      (ValueState.mk 0 "count").get
        (rebindKey heapW (ValueState.mk 0 "count")._state_api_client 1) ∧
    ((ValueState.mk 0 "count").update heapW 7).bind
        (fun h1 => (ValueState.mk 0 "count").exists'
          (rebindKey h1 (ValueState.mk 0 "count")._state_api_client 1)) =
      (ValueState.mk 0 "count").exists'
        (rebindKey heapW (ValueState.mk 0 "count")._state_api_client 1) ∧
    ((ListState.mk 1 "events").update heapW [4, 5]).bind
        (fun h1 => ((ListState.mk 1 "events").get
          (rebindKey h1 (ListState.mk 1 "events")._state_api_client 1)).map
            (fun p => p.1)) =
      ((ListState.mk 1 "events").get
        (rebindKey heapW (ListState.mk 1 "events")._state_api_client 1)).map
          (fun p => p.1) ∧
    ((ListState.mk 1 "events").update heapW [4, 5]).bind
        (fun h1 => (ListState.mk 1 "events").exists'
          (rebindKey h1 (ListState.mk 1 "events")._state_api_client 1)) =
      (ListState.mk 1 "events").exists'
        (rebindKey heapW (ListState.mk 1 "events")._state_api_client 1)) :=
  ⟨⟨rfl, rfl, by decide⟩,
    key_isolation (ValueState.mk 0 "count") (ListState.mk 1 "events") heapW
      7 [4, 5] 0 1 rfl rfl rfl rfl (by decide)⟩

/-- C6: `getValueState(name, schema)` on a fresh name registers
`(name, schema)` (scalar-kind) with the Registry Client behind the handle's
reference and returns a `ValueState` bound to that name and client. -/
theorem handle_getValueState_registers (hd : StatefulProcessorHandle)
    (h : Heap) (n : Name) (s : Schema)
    (hc : (h hd.state_api_client).closed = false)
    (hfresh : (h hd.state_api_client).lookupReg n = none) :
    (hd.getValueState h n s).map (fun r => r.1) =
      .ok ⟨hd.state_api_client, n⟩ ∧
    (hd.getValueState h n s).map
        (fun r => (r.2.2 hd.state_api_client).lookupReg n) =
      .ok (some (s, .scalar)) := by
  have hf : (h hd.state_api_client).registrations.find?
      (fun e => e.1 = n) = none := by
    unfold StateApiClient.lookupReg at hfresh
    exact Option.map_eq_none'.mp hfresh
  constructor <;>
    simp [StatefulProcessorHandle.getValueState,
      StateApiClient.getValueState, StateApiClient.register,
      StateApiClient.lookupReg, hc, hf, heapUpdate_at,
      List.find?_append, Except.map]

/-- Witness for C6 at a concrete input. -/
theorem handle_getValueState_registers_w :
    ((heapW (StatefulProcessorHandle.mk 0).state_api_client).closed = false ∧
      (heapW (StatefulProcessorHandle.mk 0).state_api_client).lookupReg
        "count" = none) ∧
    (((StatefulProcessorHandle.mk 0).getValueState heapW "count" "int").map
        (fun r => r.1) = .ok ⟨0, "count"⟩ ∧
    ((StatefulProcessorHandle.mk 0).getValueState heapW "count" "int").map
        (fun r => (r.2.2 (StatefulProcessorHandle.mk 0).state_api_client
          ).lookupReg "count") = .ok (some ("int", .scalar))) :=
  ⟨⟨rfl, rfl⟩,
    handle_getValueState_registers (StatefulProcessorHandle.mk 0) heapW
      "count" "int" rfl rfl⟩

/-- C7: `getListState(name, schema)` on a fresh name registers
`(name, schema)` (list-kind) with the Registry Client behind the handle's
reference and returns a `ListState` bound to that name and client — the
same contract as `getValueState`, for list-kind state. -/
theorem handle_getListState_registers (hd : StatefulProcessorHandle)
    (h : Heap) (n : Name) (s : Schema)
    (hc : (h hd.state_api_client).closed = false)
    (hfresh : (h hd.state_api_client).lookupReg n = none) :
    (hd.getListState h n s).map (fun r => r.1) =
      .ok ⟨hd.state_api_client, n⟩ ∧
    (hd.getListState h n s).map
        (fun r => (r.2.2 hd.state_api_client).lookupReg n) =
      .ok (some (s, .list)) := by
  have hf : (h hd.state_api_client).registrations.find?
      (fun e => e.1 = n) = none := by
    unfold StateApiClient.lookupReg at hfresh
    exact Option.map_eq_none'.mp hfresh
  constructor <;>
    simp [StatefulProcessorHandle.getListState,
      StateApiClient.getListState, StateApiClient.register,
      StateApiClient.lookupReg, hc, hf, heapUpdate_at,
      List.find?_append, Except.map]

/-- Witness for C7 at a concrete input. -/
theorem handle_getListState_registers_w :
    ((heapW (StatefulProcessorHandle.mk 0).state_api_client).closed = false ∧
      (heapW (StatefulProcessorHandle.mk 0).state_api_client).lookupReg
        "events" = none) ∧
    (((StatefulProcessorHandle.mk 0).getListState heapW "events" "str").map
        (fun r => r.1) = .ok ⟨0, "events"⟩ ∧
    ((StatefulProcessorHandle.mk 0).getListState heapW "events" "str").map
        (fun r => (r.2.2 (StatefulProcessorHandle.mk 0).state_api_client
          ).lookupReg "events") = .ok (some ("str", .list))) :=
  ⟨⟨rfl, rfl⟩,
    handle_getListState_registers (StatefulProcessorHandle.mk 0) heapW
      "events" "str" rfl rfl⟩

/-- A client whose connection has been closed, used by the C8 witness. -/
def clientClosedW : StateApiClient :=
  ⟨[], fun _ _ => none, fun _ _ => [], some 0, true⟩

/-- A heap whose every reference holds the closed client. -/
def heapClosedW : Heap := fun _ => clientClosedW

/-- C8: after `close()` every state operation — `exists`, `get`, `update`,
`remove` on any ScalarState or ListState, and any new declaration through
the handle — fails with `HandleClosed`; `close()` marks the connection
released, and a valid task lifecycle performs `close` exactly once. -/
theorem closed_ops_fail (vs : ValueState) (ls : ListState)
    (hd : StatefulProcessorHandle) (h : Heap) (v : Val) (seq : List Val)
    (n : Name) (s : Schema) (c : StateApiClient) (t : List LifecycleEvent)
    (hv : (h vs._state_api_client).closed = true)
    (hl : (h ls._state_api_client).closed = true)
    (hh : (h hd.state_api_client).closed = true)
    (ht : ValidLifecycle t) :
    (vs.exists' h = .error .HandleClosed ∧
      vs.get h = .error .HandleClosed ∧
      vs.update h v = .error .HandleClosed ∧
      vs.remove h = .error .HandleClosed) ∧
    (ls.exists' h = .error .HandleClosed ∧
      ls.get h = .error .HandleClosed ∧
      ls.update h seq = .error .HandleClosed ∧
      ls.remove h = .error .HandleClosed) ∧
    (hd.getValueState h n s = .error .HandleClosed ∧
      hd.getListState h n s = .error .HandleClosed) ∧
    (StateApiClient.close c).closed = true ∧
    t.count LifecycleEvent.closeEv = 1 := by
  refine ⟨?_, ?_, ?_, ?_, ?_⟩
  · refine ⟨?_, ?_, ?_, ?_⟩ <;>
      simp [ValueState.exists', ValueState.get, ValueState.update,
        ValueState.remove, StateApiClient.scalarExists,
        StateApiClient.scalarGet, StateApiClient.scalarUpdate,
        StateApiClient.scalarRemove, StateApiClient.currentKey, hv,
        Except.map]
  · refine ⟨?_, ?_, ?_, ?_⟩ <;>
      simp [ListState.exists', ListState.get, ListState.update,
        ListState.remove, StateApiClient.listExists,
        StateApiClient.listGet, StateApiClient.listUpdate,
        StateApiClient.listRemove, StateApiClient.currentKey, hl,
        Except.map]
  · constructor <;>
      simp [StatefulProcessorHandle.getValueState,
        StatefulProcessorHandle.getListState, StateApiClient.getValueState,
        StateApiClient.getListState, StateApiClient.register, hh,
        Except.map]
  · rfl
  · cases ht with
    | mk ks =>
      have h0 : (ks.map LifecycleEvent.handleEv).count
          LifecycleEvent.closeEv = 0 := by
        refine List.count_eq_zero.mpr ?_
        intro hmem
        obtain ⟨k, _, he⟩ := List.mem_map.mp hmem
        exact LifecycleEvent.noConfusion he
      simp [List.count_cons, List.count_append, h0]

/-- Witness for C8 at a concrete input. -/
theorem closed_ops_fail_w :
    ((heapClosedW (ValueState.mk 0 "count")._state_api_client).closed =
        true ∧
      (heapClosedW (ListState.mk 0 "events")._state_api_client).closed =
        true ∧
      (heapClosedW (StatefulProcessorHandle.mk 0).state_api_client).closed =
        true ∧
      ValidLifecycle [LifecycleEvent.initEv, LifecycleEvent.handleEv 0,
        LifecycleEvent.closeEv]) ∧
    (((ValueState.mk 0 "count").exists' heapClosedW =
        .error .HandleClosed ∧
      (ValueState.mk 0 "count").get heapClosedW = .error .HandleClosed ∧
      (ValueState.mk 0 "count").update heapClosedW 5 =
        .error .HandleClosed ∧
      (ValueState.mk 0 "count").remove heapClosedW =
        .error .HandleClosed) ∧
    ((ListState.mk 0 "events").exists' heapClosedW =
        .error .HandleClosed ∧
      (ListState.mk 0 "events").get heapClosedW = .error .HandleClosed ∧
      (ListState.mk 0 "events").update heapClosedW [1] =
        .error .HandleClosed ∧
      (ListState.mk 0 "events").remove heapClosedW =
        .error .HandleClosed) ∧
    ((StatefulProcessorHandle.mk 0).getValueState heapClosedW "x" "s" =
        .error .HandleClosed ∧
      (StatefulProcessorHandle.mk 0).getListState heapClosedW "x" "s" =
        .error .HandleClosed) ∧
    (StateApiClient.close clientW).closed = true ∧
    ([LifecycleEvent.initEv, LifecycleEvent.handleEv 0,
        LifecycleEvent.closeEv].count LifecycleEvent.closeEv = 1)) :=
  ⟨⟨rfl, rfl, rfl, ValidLifecycle.mk [0]⟩,
    closed_ops_fail (ValueState.mk 0 "count") (ListState.mk 0 "events")
      (StatefulProcessorHandle.mk 0) heapClosedW 5 [1] "x" "s" clientW
      [LifecycleEvent.initEv, LifecycleEvent.handleEv 0,
        LifecycleEvent.closeEv]
      rfl rfl rfl (ValidLifecycle.mk [0])⟩

/-- C9: frame property of `getListState` — the method body assigns nothing
to the handle, so after a successful call the handle is unchanged and its
`state_api_client` is the very same client reference as before. -/
theorem handle_getListState_frame (hd : StatefulProcessorHandle) (h : Heap)
    (n : Name) (s : Schema)
    (hok : (hd.getListState h n s).isOk = true) :
    (hd.getListState h n s).map (fun r => r.2.1) = .ok hd := by
  unfold StatefulProcessorHandle.getListState at hok ⊢
  cases hreg : (h hd.state_api_client).getListState n s with
  | error e => rw [hreg] at hok; simp [Except.isOk, Except.toBool, Except.map] at hok
  | ok c => simp [hreg, Except.map]

/-- Witness for C9 at a concrete input. -/
theorem handle_getListState_frame_w :
    ((StatefulProcessorHandle.mk 0).getListState heapW "x" "s").isOk =
      true ∧
    ((StatefulProcessorHandle.mk 0).getListState heapW "x" "s").map
      (fun r => r.2.1) = .ok (StatefulProcessorHandle.mk 0) :=
  ⟨rfl, handle_getListState_frame (StatefulProcessorHandle.mk 0) heapW
    "x" "s" rfl⟩

/-- C10: the `ListState` returned by a successful `getListState` wraps
exactly the handle's client reference and the given name; and a `ListState`
is determined by those two fields alone — it stores no grouping key of its
own. -/
theorem handle_getListState_wraps (hd : StatefulProcessorHandle) (h : Heap)
    (n : Name) (s : Schema)
    (hok : (hd.getListState h n s).isOk = true) :
    (hd.getListState h n s).map (fun r => r.1) =
      .ok ⟨hd.state_api_client, n⟩ ∧
    (∀ l1 l2 : ListState, l1._state_api_client = l2._state_api_client →
      l1._state_name = l2._state_name → l1 = l2) := by
  constructor
  · unfold StatefulProcessorHandle.getListState at hok ⊢
    cases hreg : (h hd.state_api_client).getListState n s with
    | error e => rw [hreg] at hok; simp [Except.isOk, Except.toBool, Except.map] at hok
    | ok c => simp [hreg, Except.map]
  · intro l1 l2 h1 h2
    cases l1
    cases l2
    simp_all

/-- Witness for C10 at a concrete input. -/
theorem handle_getListState_wraps_w :
    ((StatefulProcessorHandle.mk 0).getListState heapW "events" "s").isOk =
      true ∧
    ((StatefulProcessorHandle.mk 0).getListState heapW "events" "s").map
      (fun r => r.1) = .ok ⟨0, "events"⟩ :=
  ⟨rfl, (handle_getListState_wraps (StatefulProcessorHandle.mk 0) heapW
    "events" "s" rfl).1⟩

end Spark
